import Mathlib

/-!
Verification of the cafe-finder script (src/script.js) against its
natural-language specification.  The relevant parts of the script are
shallowly embedded below: pure functions become Lean functions, the
stateful handlers become explicit state-passing functions, JS numbers are
modelled by real numbers, fallible operations return `Option`/`Except`.
-/

open scoped Classical

/-! ## Geometry (script.js lines 57-69) -/

/-- Degrees to radians, as in the script: `(x * Math.PI) / 180`. -/
noncomputable def toRad (x : ℝ) : ℝ := x * Real.pi / 180

/-- Model of JavaScript `Math.atan2 y x` on the real numbers. -/
noncomputable def atan2 (y x : ℝ) : ℝ :=
  if 0 < x then Real.arctan (y / x)
  else if x < 0 ∧ 0 ≤ y then Real.arctan (y / x) + Real.pi
  else if x < 0 ∧ y < 0 then Real.arctan (y / x) - Real.pi
  else if x = 0 ∧ 0 < y then Real.pi / 2
  else if x = 0 ∧ y < 0 then -(Real.pi / 2)
  else 0

/-- The intermediate value `a` of the haversine formula in
`haversineDistance` (script.js line 65-66). -/
noncomputable def haversineA (lat1 lon1 lat2 lon2 : ℝ) : ℝ :=
  Real.sin (toRad (lat2 - lat1) / 2) ^ 2 +
    Real.cos (toRad lat1) * Real.cos (toRad lat2) * Real.sin (toRad (lon2 - lon1) / 2) ^ 2

/-- Function `haversineDistance(lat1, lon1, lat2, lon2)` from script.js lines 57-69:
Earth radius 6,371,000 m, `c = 2 * atan2(sqrt a, sqrt (1 - a))`, result `R * c`. -/
noncomputable def haversineDistance (lat1 lon1 lat2 lon2 : ℝ) : ℝ :=
  6371000 *
    (2 * atan2 (Real.sqrt (haversineA lat1 lon1 lat2 lon2))
      (Real.sqrt (1 - haversineA lat1 lon1 lat2 lon2)))

lemma haversineA_comm (lat1 lon1 lat2 lon2 : ℝ) :
    haversineA lat1 lon1 lat2 lon2 = haversineA lat2 lon2 lat1 lon1 := by
  unfold haversineA toRad
  have h1 : (lat1 - lat2) * Real.pi / 180 / 2 = -((lat2 - lat1) * Real.pi / 180 / 2) := by ring
  have h2 : (lon1 - lon2) * Real.pi / 180 / 2 = -((lon2 - lon1) * Real.pi / 180 / 2) := by ring
  rw [h1, h2, Real.sin_neg, Real.sin_neg]
  ring

lemma haversineA_self (lat lon : ℝ) : haversineA lat lon lat lon = 0 := by
  unfold haversineA toRad
  simp

/-- C5: for all coordinate pairs the haversine distance is symmetric, and
the distance from any point to itself is zero. -/
theorem haversineDistance_symm_and_self_zero :
    (∀ lat1 lon1 lat2 lon2 : ℝ,
      haversineDistance lat1 lon1 lat2 lon2 = haversineDistance lat2 lon2 lat1 lon1) ∧
    (∀ lat lon : ℝ, haversineDistance lat lon lat lon = 0) := by
  constructor
  · intro lat1 lon1 lat2 lon2
    unfold haversineDistance
    rw [haversineA_comm]
  · intro lat lon
    unfold haversineDistance
    rw [haversineA_self]
    have h0 : Real.sqrt 0 = 0 := Real.sqrt_zero
    have h1 : Real.sqrt (1 - (0:ℝ)) = 1 := by
      rw [sub_zero, Real.sqrt_one]
    rw [h0, h1]
    unfold atan2
    rw [if_pos one_pos]
    simp [Real.arctan_zero]

/-! ## Cafe records (script.js lines 222-230, 239-248) -/

/-- Canonical cafe record produced by normalization (script.js lines 222-230
and 239-248).  `rating` and `distanceMeters` are optional (absent = JS
`undefined`). -/
structure Cafe where
  id : String
  name : String
  area : String
  address : String
  contact : String
  lat : ℝ
  lng : ℝ
  rating : Option ℝ := none
  distanceMeters : Option ℝ := none

/-! ## Distance attachment and sort (script.js lines 251-256) -/

/-- Ordering used by the sort comparator
`(a.distanceMeters ?? Infinity) - (b.distanceMeters ?? Infinity)`
(script.js line 255): an absent distance behaves like `Infinity`,
so it sorts after every present value and ties with another absent one. -/
def nullishLe : Option ℝ → Option ℝ → Prop
  | some x, some y => x ≤ y
  | some _, none => True
  | none, some _ => False
  | none, none => True

lemma nullishLe_refl : ∀ a : Option ℝ, nullishLe a a
  | some x => le_refl x
  | none => trivial

lemma nullishLe_of_eq {a b : Option ℝ} (h : a = b) : nullishLe a b := h ▸ nullishLe_refl a

lemma nullishLe_trans : ∀ a b c : Option ℝ, nullishLe a b → nullishLe b c → nullishLe a c
  | some _, some _, some _, hab, hbc => le_trans hab hbc
  | some _, some _, none, _, _ => trivial
  | some _, none, none, _, _ => trivial
  | some _, none, some _, _, hbc => False.elim hbc
  | none, none, none, _, _ => trivial
  | none, none, some _, _, hbc => False.elim hbc
  | none, some _, _, hab, _ => False.elim hab

lemma nullishLe_total : ∀ a b : Option ℝ, nullishLe a b ∨ nullishLe b a
  | some x, some y => le_total x y
  | some _, none => Or.inl trivial
  | none, some _ => Or.inr trivial
  | none, none => Or.inl trivial

/-- Boolean form of the comparator, as handed to the (stable) sort. -/
noncomputable def cafeLe (a b : Cafe) : Bool :=
  decide (nullishLe a.distanceMeters b.distanceMeters)

lemma cafeLe_trans : ∀ a b c : Cafe, cafeLe a b → cafeLe b c → cafeLe a c := by
  intro a b c hab hbc
  simp only [cafeLe, decide_eq_true_eq] at *
  exact nullishLe_trans _ _ _ hab hbc

lemma cafeLe_total : ∀ a b : Cafe, cafeLe a b || cafeLe b a := by
  intro a b
  simp only [cafeLe, Bool.or_eq_true, decide_eq_true_eq]
  exact nullishLe_total _ _

/-- The `forEach` in `attachDistances` (script.js lines 252-254): set
`distanceMeters` on every record from the origin. -/
noncomputable def withDistances (originLat originLng : ℝ) (cafes : List Cafe) : List Cafe :=
  cafes.map fun c =>
    { c with distanceMeters := some (haversineDistance originLat originLng c.lat c.lng) }

/-- Function `attachDistances(cafes, originLat, originLng)` (script.js lines 251-256):
attach distances, then sort ascending by `distanceMeters` with a stable sort
(JS `Array.prototype.sort` is stable). -/
noncomputable def attachDistances (cafes : List Cafe) (originLat originLng : ℝ) : List Cafe :=
  (withDistances originLat originLng cafes).mergeSort cafeLe

/-- C2: after `attachDistances`, every record carries the haversine distance
from the origin to its own coordinates, the list is pairwise non-decreasing
in `distanceMeters`, it is a permutation of the distance-attached input, and
records tying on distance keep their relative input order (stability). -/
theorem attachDistances_spec (cafes : List Cafe) (originLat originLng : ℝ) :
    (∀ c ∈ attachDistances cafes originLat originLng,
        c.distanceMeters = some (haversineDistance originLat originLng c.lat c.lng)) ∧
    List.Pairwise (fun a b : Cafe => nullishLe a.distanceMeters b.distanceMeters)
      (attachDistances cafes originLat originLng) ∧
    (attachDistances cafes originLat originLng).Perm (withDistances originLat originLng cafes) ∧
    (∀ a b : Cafe, [a, b].Sublist (withDistances originLat originLng cafes) →
        a.distanceMeters = b.distanceMeters →
        [a, b].Sublist (attachDistances cafes originLat originLng)) := by
  refine ⟨?_, ?_, ?_, ?_⟩
  · intro c hc
    simp only [attachDistances, List.mem_mergeSort, withDistances] at hc
    obtain ⟨a, ha, rfl⟩ := List.mem_map.mp hc
    rfl
  · have hs := List.sorted_mergeSort cafeLe_trans cafeLe_total
      (withDistances originLat originLng cafes)
    exact hs.imp (fun h => by simpa only [cafeLe, decide_eq_true_eq] using h)
  · exact List.mergeSort_perm _ _
  · intro a b hsub heq
    exact List.pair_sublist_mergeSort cafeLe_trans cafeLe_total
      (by simp only [cafeLe, decide_eq_true_eq]; exact nullishLe_of_eq heq) hsub

/-- Two cafes at the same coordinates, used to exercise the stability part
of `attachDistances_spec`. -/
def cafeW1 : Cafe := ⟨"1", "Alpha", "", "", "", 0, 0, none, none⟩

/-- Second cafe at the same coordinates as `cafeW1`. -/
def cafeW2 : Cafe := ⟨"2", "Beta", "", "", "", 0, 0, none, none⟩

/-- Record `cafeW1` after distance attachment from origin `(0, 0)`. -/
noncomputable def cafeW1d : Cafe :=
  ⟨"1", "Alpha", "", "", "", 0, 0, none, some (haversineDistance 0 0 0 0)⟩

/-- Record `cafeW2` after distance attachment from origin `(0, 0)`. -/
noncomputable def cafeW2d : Cafe :=
  ⟨"2", "Beta", "", "", "", 0, 0, none, some (haversineDistance 0 0 0 0)⟩

/-- Witness for `attachDistances_spec`: two cafes tying on distance keep
their input order after the sort. -/
theorem attachDistances_spec_witness :
    [cafeW1d, cafeW2d].Sublist (attachDistances [cafeW1, cafeW2] 0 0) :=
  (attachDistances_spec [cafeW1, cafeW2] 0 0).2.2.2 cafeW1d cafeW2d
    (List.Sublist.refl _) rfl

/-! ## Overpass normalization (script.js lines 214-232) -/

/-- A coordinate object read through its `.lat` / `.lng` properties. -/
structure LatLng where
  lat : ℝ
  lng : ℝ

/-- A raw element of the primary (Overpass) response: numeric id, tag bag,
optional direct coordinates `lat`/`lon`, optional centroid `center`. -/
structure OverpassElement where
  id : Int
  tags : List (String × String)
  lat : Option ℝ
  lon : Option ℝ
  center : Option LatLng

/-- JS `a || d` on an optional string: absent and `""` are falsy. -/
def jsOrString (v : Option String) (d : String) : String :=
  match v with
  | some s => if s = "" then d else s
  | none => d

/-- Address composition (script.js lines 219-221): join the present,
non-empty address tags with a comma. -/
def composeAddress (tags : List (String × String)) : String :=
  String.intercalate ", "
    (([tags.lookup "addr:housename", tags.lookup "addr:housenumber",
        tags.lookup "addr:street", tags.lookup "addr:suburb",
        tags.lookup "addr:city"].filterMap id).filter fun s => s ≠ "")

/-- Coordinate resolution (script.js line 217):
`nlat && nlon ? ` becomes the direct pair only when both coordinates are
present and truthy (nonzero); otherwise `center || null`. -/
noncomputable def resolveLatLng (el : OverpassElement) : Option LatLng :=
  match el.lat, el.lon with
  | some nlat, some nlon =>
      if nlat ≠ 0 ∧ nlon ≠ 0 then some ⟨nlat, nlon⟩ else el.center
  | _, _ => el.center

/-- The cafe record built for a resolvable element
(script.js lines 222-230). -/
def mkOverpassCafe (el : OverpassElement) (p : LatLng) : Cafe :=
  { id := toString el.id
    name := jsOrString (el.tags.lookup "name") "Cafe"
    area := jsOrString (el.tags.lookup "addr:suburb")
      (jsOrString (el.tags.lookup "addr:city") "")
    address := composeAddress el.tags
    contact := jsOrString (el.tags.lookup "contact:phone")
      (jsOrString (el.tags.lookup "phone") "")
    lat := p.lat
    lng := p.lng }

/-- One element of the `.map` in `fetchOverpassCafes`: `null` (here `none`)
when the coordinates do not resolve. -/
noncomputable def toCafe (el : OverpassElement) : Option Cafe :=
  (resolveLatLng el).map (mkOverpassCafe el)

/-- The `.map(...).filter(Boolean)` pipeline of `fetchOverpassCafes`
(script.js lines 214-232). -/
noncomputable def normalizeElements (elements : List OverpassElement) : List Cafe :=
  (elements.map toCafe).reduceOption

/-- C3: normalization drops exactly the elements without resolvable
coordinates, and every output record carries the resolved coordinates. -/
theorem normalizeElements_spec (elements : List OverpassElement) :
    normalizeElements elements = elements.filterMap toCafe ∧
    (∀ el : OverpassElement, resolveLatLng el = none → toCafe el = none) ∧
    (∀ c ∈ normalizeElements elements, ∃ el ∈ elements, ∃ p : LatLng,
        resolveLatLng el = some p ∧ toCafe el = some c ∧
        c.lat = p.lat ∧ c.lng = p.lng) := by
  have hfm : normalizeElements elements = elements.filterMap toCafe := by
    simp [normalizeElements, List.reduceOption, List.filterMap_map, Function.id_comp]
  refine ⟨hfm, ?_, ?_⟩
  · intro el h
    simp [toCafe, h]
  · intro c hc
    rw [hfm] at hc
    obtain ⟨el, hel, hsome⟩ := List.mem_filterMap.mp hc
    cases hp : resolveLatLng el with
    | none => rw [toCafe, hp] at hsome; exact absurd hsome (by simp)
    | some p =>
        have hc' : mkOverpassCafe el p = c := by simpa [toCafe, hp] using hsome
        subst hc'
        exact ⟨el, hel, p, hp, hsome, rfl, rfl⟩

/-- An element with neither direct coordinates nor a centroid. -/
def elemNoCoords : OverpassElement := ⟨1, [], none, none, none⟩

/-- Witness for `normalizeElements_spec`: the coordinate-free element is
dropped. -/
theorem normalizeElements_spec_witness : toCafe elemNoCoords = none :=
  (normalizeElements_spec []).2.1 elemNoCoords rfl

/-- C10: an element whose own latitude or longitude is exactly `0` fails the
truthiness test of line 217, so its direct coordinates are ignored: it
resolves through its centroid and is dropped when it has none. -/
theorem zero_coordinate_truthiness (el : OverpassElement)
    (h0 : el.lat = some 0 ∨ el.lon = some 0) :
    resolveLatLng el = el.center ∧
    (toCafe el = none ↔ el.center = none) ∧
    (∀ p : LatLng, el.center = some p →
        ∃ c : Cafe, toCafe el = some c ∧ c.lat = p.lat ∧ c.lng = p.lng) := by
  have hres : resolveLatLng el = el.center := by
    rcases hlat : el.lat with _ | nlat <;> rcases hlon : el.lon with _ | nlon <;>
      simp only [resolveLatLng, hlat, hlon]
    rw [if_neg]
    rintro ⟨ha, hb⟩
    rcases h0 with h | h
    · exact ha (Option.some.inj (hlat.symm.trans h))
    · exact hb (Option.some.inj (hlon.symm.trans h))
  refine ⟨hres, ?_, ?_⟩
  · cases hcen : el.center with
    | none => simp [toCafe, hres, hcen]
    | some p => simp [toCafe, hres, hcen]
  · intro p hp
    exact ⟨mkOverpassCafe el p, by simp [toCafe, hres, hp], rfl, rfl⟩

/-- An element at latitude exactly `0` with a real longitude and no
centroid. -/
def elemZeroLat : OverpassElement := ⟨2, [], some 0, some 5, none⟩

/-- Witness for `zero_coordinate_truthiness`: the zero-latitude element is
dropped despite having direct coordinates. -/
theorem zero_coordinate_truthiness_witness : toCafe elemZeroLat = none :=
  ((zero_coordinate_truthiness elemZeroLat (Or.inl rfl)).2.1).mpr rfl

/-! ## Search filter (script.js lines 349-362) -/

/-- Model of JS `toLowerCase()`: lower-case every character. -/
def jsToLower (s : String) : String := String.mk (s.data.map Char.toLower)

/-- Model of JS `trim()`: drop whitespace from both ends. -/
def jsTrim (s : String) : String :=
  String.mk (((s.data.dropWhile Char.isWhitespace).reverse.dropWhile
    Char.isWhitespace).reverse)

/-- Model of JS `String.prototype.includes`: substring containment. -/
def containsSub (s q : String) : Bool := decide (q.data <:+: s.data)

/-- The match predicate of `handleSearchInput` (script.js lines 356-359):
the lower-cased `name` or `area` contains the query. -/
def matchesQuery (c : Cafe) (q : String) : Bool :=
  containsSub (jsToLower c.name) q || containsSub (jsToLower c.area) q

/-- The filtering step of `handleSearchInput` (script.js lines 349-362):
trim and lower-case the query; an empty query keeps the whole list,
otherwise keep the records matching on `name` or `area`. -/
def filterCafes (cafes : List Cafe) (query : String) : List Cafe :=
  if jsToLower (jsTrim query) = "" then cafes
  else cafes.filter fun c => matchesQuery c (jsToLower (jsTrim query))

lemma jsToLower_empty_iff (s : String) : jsToLower s = "" ↔ s = "" := by
  cases s with
  | mk l =>
      constructor
      · intro h
        have hd : l.map Char.toLower = [] := congrArg String.data h
        have hl : l = [] := List.map_eq_nil_iff.mp hd
        rw [hl]
      · intro h
        rw [h]
        rfl

/-- C4: an empty-after-trimming query is the identity filter; otherwise the
result is exactly the order-preserving subsequence of records whose
lower-cased `name` or `area` contains the trimmed lower-cased query, and the
predicate consults no field besides `name` and `area`. -/
theorem filterCafes_spec (cafes : List Cafe) (query : String) :
    (jsTrim query = "" → filterCafes cafes query = cafes) ∧
    (jsTrim query ≠ "" →
        filterCafes cafes query =
          cafes.filter (fun c => matchesQuery c (jsToLower (jsTrim query))) ∧
        (filterCafes cafes query).Sublist cafes) ∧
    (∀ c1 c2 : Cafe, c1.name = c2.name → c1.area = c2.area →
        ∀ q : String, matchesQuery c1 q = matchesQuery c2 q) := by
  refine ⟨?_, ?_, ?_⟩
  · intro h
    rw [filterCafes, h]
    exact if_pos rfl
  · intro h
    have hq : jsToLower (jsTrim query) ≠ "" :=
      fun hc => h ((jsToLower_empty_iff (jsTrim query)).mp hc)
    constructor
    · rw [filterCafes]
      exact if_neg hq
    · rw [filterCafes, if_neg hq]
      exact List.filter_sublist _
  · intro c1 c2 hn ha q
    rw [matchesQuery, matchesQuery, hn, ha]

/-- Witness for `filterCafes_spec`: a whitespace-only query leaves the list
unchanged. -/
theorem filterCafes_spec_witness : filterCafes [cafeW1] "  " = [cafeW1] :=
  (filterCafes_spec [cafeW1] "  ").1 (by decide)

/-! ## Canonical and filtered set (script.js lines 183-188, 283-297, 349-362) -/

/-- The module-level UI state touched by `updateUI` and the handlers:
canonical set `allCafes`, derived view `filteredCafes`, the text of the
search input, and the summary line. -/
structure AppState where
  allCafes : List Cafe
  filteredCafes : List Cafe
  searchQuery : String
  summary : String

/-- Function `updateUI(cafes, from)` (script.js lines 183-188): replace the filtered
set with `cafes`; when called from a fetch it also rewrites the summary. -/
def updateUI (s : AppState) (cafes : List Cafe) (fromFetch : Bool) : AppState :=
  if fromFetch then
    { s with filteredCafes := cafes,
             summary := toString cafes.length ++ " cafe(s) found" }
  else
    { s with filteredCafes := cafes }

/-- Function `handleSearchInput` (script.js lines 349-362): recompute the filtered
view of `allCafes` from the current query. -/
def handleSearchInput (s : AppState) : AppState :=
  if jsToLower (jsTrim s.searchQuery) = "" then
    { updateUI s s.allCafes false with
        summary := toString s.allCafes.length ++ " cafe(s) found" }
  else
    { updateUI s (s.allCafes.filter fun c =>
          matchesQuery c (jsToLower (jsTrim s.searchQuery))) false with
        summary := toString (s.allCafes.filter fun c =>
            matchesQuery c (jsToLower (jsTrim s.searchQuery))).length ++
          " result(s) for " ++ jsToLower (jsTrim s.searchQuery) }

/-- The canonical-set replacement on a successful fetch
(script.js lines 289-290 and 296-297): `allCafes = cafes; updateUI(allCafes, 'fetch')`. -/
def applyFetchSuccess (s : AppState) (cafes : List Cafe) : AppState :=
  updateUI { s with allCafes := cafes } cafes true

/-- A state whose search box still holds the query `"z"`. -/
def stateQueryZ : AppState := ⟨[], [], "z", ""⟩

/-- Counterexample to C9 as stated: after a successful fetch the filtered
set is the whole canonical set even though the pending query `"z"` matches
none of it, so it differs from the query-filtered subset. -/
theorem fetch_refresh_ignores_query_cex :
    (applyFetchSuccess stateQueryZ [cafeW1]).filteredCafes ≠
      filterCafes (applyFetchSuccess stateQueryZ [cafeW1]).allCafes
        (applyFetchSuccess stateQueryZ [cafeW1]).searchQuery := by
  intro h
  have h1 : (applyFetchSuccess stateQueryZ [cafeW1]).filteredCafes = [cafeW1] := rfl
  have h2 : filterCafes (applyFetchSuccess stateQueryZ [cafeW1]).allCafes
      (applyFetchSuccess stateQueryZ [cafeW1]).searchQuery = [] := by
    show filterCafes [cafeW1] "z" = []
    rw [filterCafes, if_neg (by decide), List.filter_cons, List.filter_nil]
    have hm : matchesQuery cafeW1 (jsToLower (jsTrim "z")) = false := by decide
    rw [hm]
    rfl
  rw [h1, h2] at h
  exact List.cons_ne_nil _ _ h

/-- C9 amended: after every search-input change the filtered set is the
query-filtered subset of the canonical set; after a canonical-set
replacement the filtered set is the whole new canonical set (the pending
query is not re-applied), which agrees with the claim exactly when the
query is empty after trimming. -/
theorem filtered_set_invariant (s : AppState) (cafes : List Cafe) :
    (handleSearchInput s).filteredCafes = filterCafes s.allCafes s.searchQuery ∧
    (handleSearchInput s).allCafes = s.allCafes ∧
    (applyFetchSuccess s cafes).filteredCafes = cafes ∧
    (applyFetchSuccess s cafes).allCafes = cafes ∧
    (jsTrim s.searchQuery = "" →
        (applyFetchSuccess s cafes).filteredCafes =
          filterCafes (applyFetchSuccess s cafes).allCafes
            (applyFetchSuccess s cafes).searchQuery) := by
  refine ⟨?_, ?_, rfl, rfl, ?_⟩
  · by_cases hq : jsToLower (jsTrim s.searchQuery) = "" <;>
      simp [handleSearchInput, updateUI, filterCafes, hq]
  · by_cases hq : jsToLower (jsTrim s.searchQuery) = "" <;>
      simp [handleSearchInput, updateUI, hq]
  · intro h
    show cafes = filterCafes cafes s.searchQuery
    rw [filterCafes, h]
    exact (if_pos rfl).symm

/-- A state with an empty search box. -/
def stateEmptyQuery : AppState := ⟨[], [], "", ""⟩

/-- Witness for `filtered_set_invariant`: with an empty query, a fetch
leaves the filtered set equal to the query-filtered canonical set. -/
theorem filtered_set_invariant_witness :
    (applyFetchSuccess stateEmptyQuery [cafeW2]).filteredCafes =
      filterCafes (applyFetchSuccess stateEmptyQuery [cafeW2]).allCafes
        (applyFetchSuccess stateEmptyQuery [cafeW2]).searchQuery :=
  (filtered_set_invariant stateEmptyQuery [cafeW2]).2.2.2.2 rfl

/-! ## Fetch-with-fallback workflow (script.js lines 283-303) -/

/-- Which data source produced the result set. -/
inductive CafeSource where
  | primary
  | fallback

/-- Outcome of the nearby-search workflow: a success shows a cafe list and a
summary line, a failure only shows the terminal status message. -/
inductive SearchOutcome where
  | success (source : CafeSource) (cafes : List Cafe) (summary : String)
  | failed (summary : String)

/-- The inner `try`/`catch` of `handleFindNearMe` (script.js lines 293-302):
attach-and-sort the fallback data on success, or set the terminal status
message when the fallback load also fails. -/
noncomputable def fallbackOutcome (fallbackResult : Except String (List Cafe))
    (originLat originLng : ℝ) : SearchOutcome :=
  match fallbackResult with
  | .ok fb =>
      .success .fallback (attachDistances fb originLat originLng) "Showing fallback cafes"
  | .error _ => .failed "Could not load cafes."

/-- The fetch workflow of `handleFindNearMe` (script.js lines 283-303):
`primaryResult` models the awaited `fetchOverpassCafes` call (`.error` for a
thrown transport/HTTP error), `fallbackResult` the awaited
`loadFallbackCafes` call.  An error or an empty primary list falls through
to the fallback; otherwise the primary data is attached-and-sorted. -/
noncomputable def findNearby (primaryResult fallbackResult : Except String (List Cafe))
    (originLat originLng : ℝ) : SearchOutcome :=
  match primaryResult with
  | .ok cafes =>
      if cafes.isEmpty then fallbackOutcome fallbackResult originLat originLng
      else
        .success .primary (attachDistances cafes originLat originLng)
          (toString (attachDistances cafes originLat originLng).length ++ " cafe(s) found")
  | .error _ => fallbackOutcome fallbackResult originLat originLng

/-- C1: a primary transport/HTTP error or an empty primary result both fall
through to the fallback dataset; a fallback failure terminates in the failed
state with the message `Could not load cafes.` and nothing further is tried;
a non-empty primary result is used directly and the fallback is never
consulted. -/
theorem findNearby_spec (p f : Except String (List Cafe)) (originLat originLng : ℝ) :
    (∀ e, p = .error e →
        findNearby p f originLat originLng = fallbackOutcome f originLat originLng) ∧
    (p = .ok [] →
        findNearby p f originLat originLng = fallbackOutcome f originLat originLng) ∧
    (∀ cs, f = .ok cs →
        fallbackOutcome f originLat originLng =
          .success .fallback (attachDistances cs originLat originLng)
            "Showing fallback cafes") ∧
    (∀ e, f = .error e →
        fallbackOutcome f originLat originLng = .failed "Could not load cafes.") ∧
    (∀ cs, p = .ok cs → cs ≠ [] →
        (∀ f2 : Except String (List Cafe),
            findNearby p f originLat originLng = findNearby p f2 originLat originLng) ∧
        findNearby p f originLat originLng =
          .success .primary (attachDistances cs originLat originLng)
            (toString (attachDistances cs originLat originLng).length ++
              " cafe(s) found")) := by
  refine ⟨?_, ?_, ?_, ?_, ?_⟩
  · rintro e rfl
    rfl
  · rintro rfl
    rfl
  · rintro cs rfl
    rfl
  · rintro e rfl
    rfl
  · rintro cs rfl hne
    cases cs with
    | nil => exact absurd rfl hne
    | cons a l => exact ⟨fun f2 => rfl, rfl⟩

/-- Witness for `findNearby_spec`: a primary transport error followed by a
failing fallback load ends in the failed state with the terminal message. -/
theorem findNearby_spec_witness :
    findNearby (Except.error "boom") (Except.error "io") 0 0 =
      SearchOutcome.failed "Could not load cafes." :=
  ((findNearby_spec (Except.error "boom") (Except.error "io") 0 0).1 "boom" rfl).trans
    ((findNearby_spec (Except.error "boom") (Except.error "io") 0 0).2.2.2.1 "io" rfl)

/-! ## Selection sync (script.js lines 89-104) -/

/-- The selection-sync registries and state: the card registry with each
card's highlight flag, the marker registry, the marker whose popup is open,
and `selectedCafeId`. -/
structure SelState where
  cards : List (String × Bool)
  markers : List String
  openPopupId : Option String
  selectedCafeId : Option String

/-- Function `selectCafe(cafeId)` (script.js lines 89-104): clear every card's
highlight, highlight the card for `cafeId` when it exists, open the marker
popup when the marker exists, and set `selectedCafeId` unconditionally. -/
def selectCafe (s : SelState) (cafeId : String) : SelState :=
  { s with
      cards := (s.cards.map fun p => (p.1, false)).map
        fun p => if p.1 = cafeId then (p.1, true) else p,
      openPopupId := if cafeId ∈ s.markers then some cafeId else s.openPopupId,
      selectedCafeId := some cafeId }

lemma selectCafe_cards (s : SelState) (cafeId : String) :
    (selectCafe s cafeId).cards =
      s.cards.map fun p => if p.1 = cafeId then (p.1, true) else (p.1, false) := by
  simp only [selectCafe, List.map_map]
  apply List.map_congr_left
  intro p _
  by_cases h : p.1 = cafeId <;> simp [h, Function.comp]

lemma highlight_count_aux (cafeId : String) :
    ∀ l : List (String × Bool), (l.map Prod.fst).Nodup →
      ((l.map fun p => if p.1 = cafeId then (p.1, true) else (p.1, false)).filter
        fun p => p.2).length ≤ 1 := by
  intro l
  induction l with
  | nil =>
      intro _
      simp
  | cons a l ih =>
      intro hnd
      rw [List.map_cons, List.nodup_cons] at hnd
      obtain ⟨hna, hnd⟩ := hnd
      by_cases h : a.1 = cafeId
      · have hrest : ((l.map fun p => if p.1 = cafeId then (p.1, true) else (p.1, false)).filter
            fun p => p.2) = [] := by
          rw [List.filter_eq_nil_iff]
          intro b hb
          obtain ⟨q, hq, rfl⟩ := List.mem_map.mp hb
          have hne : q.1 ≠ cafeId :=
            fun he => hna (h ▸ he ▸ List.mem_map_of_mem Prod.fst hq)
          simp [hne]
        simp [List.filter_cons, h, hrest]
      · simp only [List.map_cons, if_neg h, List.filter_cons]
        simpa using ih hnd

/-- C6: `selectCafe` sets the selection state to the given id
unconditionally, keeps the card registry keys, highlights a card exactly
when its id is the given one (so at most one card is highlighted, and a
previously highlighted card loses its highlight), and leaves every card
unhighlighted when the id is unknown. -/
theorem selectCafe_spec (s : SelState) (cafeId : String)
    (hnd : (s.cards.map Prod.fst).Nodup) :
    (selectCafe s cafeId).selectedCafeId = some cafeId ∧
    (selectCafe s cafeId).cards.map Prod.fst = s.cards.map Prod.fst ∧
    (∀ p ∈ (selectCafe s cafeId).cards, p.2 = true ↔ p.1 = cafeId) ∧
    ((selectCafe s cafeId).cards.filter fun p => p.2).length ≤ 1 ∧
    (cafeId ∉ s.cards.map Prod.fst →
        ∀ p ∈ (selectCafe s cafeId).cards, p.2 = false) := by
  refine ⟨rfl, ?_, ?_, ?_, ?_⟩
  · rw [selectCafe_cards, List.map_map]
    apply List.map_congr_left
    intro p _
    by_cases h : p.1 = cafeId <;> simp [h, Function.comp]
  · intro p hp
    rw [selectCafe_cards] at hp
    obtain ⟨q, hq, rfl⟩ := List.mem_map.mp hp
    by_cases h : q.1 = cafeId <;> simp [h]
  · rw [selectCafe_cards]
    exact highlight_count_aux cafeId s.cards hnd
  · intro hmiss p hp
    rw [selectCafe_cards] at hp
    obtain ⟨q, hq, rfl⟩ := List.mem_map.mp hp
    have hne : q.1 ≠ cafeId :=
      fun he => hmiss (he ▸ List.mem_map_of_mem Prod.fst hq)
    simp [hne]

/-- A selection state with cards and markers for ids 1 and 2, id 1
currently selected and highlighted. -/
def selStateW : SelState := ⟨[("1", true), ("2", false)], ["1", "2"], some "1", some "1"⟩

/-- Witness for `selectCafe_spec`: selecting id 2 moves the unique
highlight from card 1 to card 2 and updates the selection state. -/
theorem selectCafe_spec_witness :
    (selectCafe selStateW "2").selectedCafeId = some "2" ∧
    (((selectCafe selStateW "2").cards.filter fun p => p.2).length ≤ 1) :=
  ⟨(selectCafe_spec selStateW "2" (by decide)).1,
   (selectCafe_spec selStateW "2" (by decide)).2.2.2.1⟩

/-! ## Preference persistence (script.js lines 386-399) -/

/-- The structured blob stored under the single preference key:
`\x7bradius?, lastLat?, lastLng?\x7d`. -/
structure Prefs where
  radius : Option ℝ := none
  lastLat : Option ℝ := none
  lastLng : Option ℝ := none

/-- The empty preference object, the default on parse failure or absence. -/
def emptyPrefs : Prefs := {}

/-- JS object spread `\x7b...p, ...q\x7d` on the preference shape: a field
present in `q` wins, an absent one keeps the value from `p`. -/
def mergePrefs (p q : Prefs) : Prefs :=
  { radius := q.radius <|> p.radius
    lastLat := q.lastLat <|> p.lastLat
    lastLng := q.lastLng <|> p.lastLng }

/-- Function `loadPrefs` (script.js lines 386-395): read the stored blob (an absent
or empty value becomes the empty-object text), parse it, and swallow any
parse failure via the surrounding `try`/`catch`, yielding the defaults.
`parse` models `JSON.parse` restricted to the preference shape, returning
`none` where `JSON.parse` would throw.  Totality of this function is the
no-throw guarantee for loading. -/
def loadPrefs (parse : String → Option Prefs) (stored : Option String) : Prefs :=
  match parse (jsOrString stored "\x7b\x7d") with
  | some p => p
  | none => emptyPrefs

/-- Function `savePrefs(partial)` (script.js lines 396-399): re-parse the stored
blob, merge the patch over it, and write the result back.  The body has no
`try`/`catch`, so a parse failure propagates to the caller, modelled as
`Except.error ()`. -/
def savePrefs (parse : String → Option Prefs) (stringify : Prefs → String)
    (stored : Option String) (patch : Prefs) : Except Unit String :=
  match parse (jsOrString stored "\x7b\x7d") with
  | some p => Except.ok (stringify (mergePrefs p patch))
  | none => Except.error ()

/-- A parser that accepts only the empty-object text, so any other stored
blob behaves as malformed. -/
def brittleParse : String → Option Prefs :=
  fun s => if s = "\x7b\x7d" then some emptyPrefs else none

/-- Counterexample to C7 as stated: with the malformed blob `garbage` in
storage, `savePrefs` propagates the parse failure to its caller instead of
catching it. -/
theorem savePrefs_propagates_parse_failure_cex :
    savePrefs brittleParse (fun _ => "\x7b\x7d") (some "garbage") emptyPrefs =
      Except.error () := rfl

/-- C7 amended: loading preferences never throws — a missing key or a
malformed blob yields the defaults, and a well-formed blob yields its
parse — but `savePrefs` re-parses the stored blob outside any `try`/`catch`
and so propagates a parse failure on a malformed blob to its caller. -/
theorem prefs_error_handling (parse : String → Option Prefs)
    (stringify : Prefs → String) (stored : Option String) (patch : Prefs) :
    (stored = none → parse "\x7b\x7d" = some emptyPrefs →
        loadPrefs parse stored = emptyPrefs) ∧
    (∀ s, stored = some s → s ≠ "" → parse s = none →
        loadPrefs parse stored = emptyPrefs) ∧
    (∀ s p, stored = some s → s ≠ "" → parse s = some p →
        loadPrefs parse stored = p) ∧
    (∀ s, stored = some s → s ≠ "" → parse s = none →
        savePrefs parse stringify stored patch = Except.error ()) := by
  refine ⟨?_, ?_, ?_, ?_⟩
  · rintro rfl hp
    simp [loadPrefs, jsOrString, hp]
  · rintro s rfl hs hp
    simp [loadPrefs, jsOrString, hs, hp]
  · rintro s p rfl hs hp
    simp [loadPrefs, jsOrString, hs, hp]
  · rintro s rfl hs hp
    simp [savePrefs, jsOrString, hs, hp]

/-- Witness for `prefs_error_handling`: the malformed blob `oops` makes
loading fall back to the defaults while saving propagates the failure. -/
theorem prefs_error_handling_witness :
    loadPrefs brittleParse (some "oops") = emptyPrefs ∧
    savePrefs brittleParse (fun _ => "out") (some "oops") emptyPrefs =
      Except.error () :=
  ⟨(prefs_error_handling brittleParse (fun _ => "out") (some "oops") emptyPrefs).2.1
      "oops" rfl (by decide) rfl,
   (prefs_error_handling brittleParse (fun _ => "out") (some "oops") emptyPrefs).2.2.2
      "oops" rfl (by decide) rfl⟩

/-- The patch written on a radius change to 2000 (script.js line 400). -/
def radiusPatch : Prefs := { radius := some 2000 }

/-- C8: for every stored blob and every patch, saving merges the patch over
the parsed stored structure with last-write-wins semantics: the written blob
encodes the merge, loading it back returns the merge, each field present in
the patch wins while each absent field keeps the stored value, and in
particular saving `radius := 2000` then loading returns radius 2000 together
with the previously stored `lastLat` and `lastLng`. -/
theorem savePrefs_merge_lastwrite (parse : String → Option Prefs)
    (stringify : Prefs → String) (s0 : String) (p0 patch : Prefs)
    (hs0 : s0 ≠ "") (hparse0 : parse s0 = some p0)
    (hround : parse (stringify (mergePrefs p0 patch)) =
      some (mergePrefs p0 patch))
    (hns : stringify (mergePrefs p0 patch) ≠ "") :
    savePrefs parse stringify (some s0) patch =
      Except.ok (stringify (mergePrefs p0 patch)) ∧
    loadPrefs parse (some (stringify (mergePrefs p0 patch))) =
      mergePrefs p0 patch ∧
    (∀ v, patch.radius = some v → (mergePrefs p0 patch).radius = some v) ∧
    (patch.radius = none → (mergePrefs p0 patch).radius = p0.radius) ∧
    (∀ v, patch.lastLat = some v → (mergePrefs p0 patch).lastLat = some v) ∧
    (patch.lastLat = none → (mergePrefs p0 patch).lastLat = p0.lastLat) ∧
    (∀ v, patch.lastLng = some v → (mergePrefs p0 patch).lastLng = some v) ∧
    (patch.lastLng = none → (mergePrefs p0 patch).lastLng = p0.lastLng) ∧
    (patch = radiusPatch →
        (loadPrefs parse (some (stringify (mergePrefs p0 patch)))).radius =
          some 2000 ∧
        (loadPrefs parse (some (stringify (mergePrefs p0 patch)))).lastLat =
          p0.lastLat ∧
        (loadPrefs parse (some (stringify (mergePrefs p0 patch)))).lastLng =
          p0.lastLng) := by
  have hload : loadPrefs parse (some (stringify (mergePrefs p0 patch))) =
      mergePrefs p0 patch := by
    simp [loadPrefs, jsOrString, hns, hround]
  refine ⟨?_, hload, ?_, ?_, ?_, ?_, ?_, ?_, ?_⟩
  · simp [savePrefs, jsOrString, hs0, hparse0]
  · intro v hv
    simp [mergePrefs, hv]
  · intro hv
    simp [mergePrefs, hv]
  · intro v hv
    simp [mergePrefs, hv]
  · intro hv
    simp [mergePrefs, hv]
  · intro v hv
    simp [mergePrefs, hv]
  · intro hv
    simp [mergePrefs, hv]
  · intro hpatch
    subst hpatch
    refine ⟨?_, ?_, ?_⟩ <;> rw [hload] <;> simp [mergePrefs, radiusPatch]

/-- A previously stored preference object with a radius and a last
location. -/
def prefsOldW : Prefs := ⟨some 1000, some 1, some 2⟩

/-- Record `prefsOldW` after merging the radius patch over it. -/
def mergedW : Prefs := mergePrefs prefsOldW radiusPatch

/-- A concrete parser table for the two blobs used by the radius part of
the witness. -/
def parseW : String → Option Prefs :=
  fun s => if s = "old" then some prefsOldW else if s = "new" then some mergedW else none

/-- The patch written when the user marker is placed (script.js line 404):
a last location with no radius. -/
def locPatchW : Prefs := ⟨none, some 7, some 8⟩

/-- Record `prefsOldW` after merging the location patch over it. -/
def mergedW2 : Prefs := mergePrefs prefsOldW locPatchW

/-- A concrete parser table for the two blobs used by the location part of
the witness. -/
def parseW2 : String → Option Prefs :=
  fun s => if s = "old" then some prefsOldW else if s = "new2" then some mergedW2 else none

/-- Witness for `savePrefs_merge_lastwrite`: saving radius 2000 over a blob
holding radius 1000 and a last location loads radius 2000 with the old
location intact, and saving a location patch overwrites the stored
location. -/
theorem savePrefs_merge_lastwrite_witness :
    (loadPrefs parseW (some ((fun _ => "new") (mergePrefs prefsOldW radiusPatch)))).radius =
      some 2000 ∧
    (loadPrefs parseW (some ((fun _ => "new") (mergePrefs prefsOldW radiusPatch)))).lastLat =
      some 1 ∧
    (loadPrefs parseW2 (some ((fun _ => "new2") (mergePrefs prefsOldW locPatchW)))).lastLat =
      some 7 := by
  have h1 := savePrefs_merge_lastwrite parseW (fun _ => "new") "old" prefsOldW
    radiusPatch (by decide) rfl rfl (by decide)
  have h2 := savePrefs_merge_lastwrite parseW2 (fun _ => "new2") "old" prefsOldW
    locPatchW (by decide) rfl rfl (by decide)
  refine ⟨(h1.2.2.2.2.2.2.2.2 rfl).1, (h1.2.2.2.2.2.2.2.2 rfl).2.1, ?_⟩
  exact (congrArg Prefs.lastLat h2.2.1).trans (h2.2.2.2.2.1 7 rfl)
